import Mathlib

/-!
Verification of the KBLaM evaluation script (`src/experiments/eval.py`).

Strings are modelled as `List Char`; Python string primitives used by the
script (`str.split`, substring containment via `in`, `str.replace(old, '')`,
and the two `re.findall` patterns of the answer extractor) are embedded as
executable functions below, and the evaluation routines of the script are
embedded on top of them.  Arrays are modelled as nested lists over `ℤ`/`ℚ`,
and `int()` applied to a float ratio is modelled as truncation on `ℚ`.
-/

/-- Python substring search: first occurrence of `sep` in `s`, returning the
part strictly before the occurrence and the remainder strictly after it
(`none` when `sep` does not occur). -/
def splitFirst (sep : List Char) : List Char → Option (List Char × List Char)
  | [] => none
  | c :: rest =>
    if sep.isPrefixOf (c :: rest) then some ([], (c :: rest).drop sep.length)
    else
      match splitFirst sep rest with
      | none => none
      | some (pre, post) => some (c :: pre, post)

/-- Python `sep in s` substring containment test. -/
def containsSub (sep s : List Char) : Bool := (splitFirst sep s).isSome

/-- Fuel-driven worker for Python `str.split(sep)` with a non-empty separator:
repeatedly cut at the first occurrence of `sep`.  The fuel is an upper bound
on the number of cuts; `pySplit` supplies enough fuel for the whole string. -/
def pySplitGo (sep : List Char) : Nat → List Char → List (List Char)
  | 0, s => [s]
  | fuel + 1, s =>
    match splitFirst sep s with
    | none => [s]
    | some (pre, post) => pre :: pySplitGo sep fuel post

/-- Python `s.split(sep)` for a non-empty separator. -/
def pySplit (sep s : List Char) : List (List Char) := pySplitGo sep (s.length + 1) s

/-- Embeds the answer-extraction step `answer_question(...).split(Q)[1]`
(eval.py lines 207-232 and 329-358).  Indexing `[1]` into the split result is
partial in Python: the `none` value models the `IndexError` raised when the
list has fewer than two elements. -/
def split_take_after (generated Q : List Char) : Option (List Char) :=
  (pySplit Q generated).get? 1

theorem containsSub_eq_false_iff (sep s : List Char) :
    containsSub sep s = false ↔ splitFirst sep s = none := by
  unfold containsSub
  cases h : splitFirst sep s <;> simp [h]

/-- Claim C2 (counterexample): the question text does not occur in the
generated output, yet extraction does not fall back to the full generated
text: the `[1]` indexing of `split(Q)` is out of bounds (an `IndexError` in
Python, modelled by `none`), so the claim that the full text is used as the
answer is false at this input. -/
theorem C2_counterexample :
    containsSub "What is X?".data "I do not know".data = false ∧
    split_take_after "I do not know".data "What is X?".data = none ∧
    split_take_after "I do not know".data "What is X?".data ≠
      some "I do not know".data := by
  refine ⟨by decide, by decide, by decide⟩

/-- Claim C2 (amended): whenever the question's text does not occur as a
substring of the generated output, `.split(Q)[1]` raises `IndexError`
(modelled by `none`); there is no silent fallback to the full generated
text at this step. -/
theorem C2_split_raises_on_miss (generated Q : List Char)
    (h : containsSub Q generated = false) :
    split_take_after generated Q = none := by
  have hnone : splitFirst Q generated = none :=
    (containsSub_eq_false_iff Q generated).mp h
  simp [split_take_after, pySplit, pySplitGo, hnone]

/-- Claim C2 (witness): the amended theorem evaluated at a concrete
generated text that does not contain the question string. -/
theorem C2_witness :
    containsSub "Where?".data "silence".data = false ∧
    split_take_after "silence".data "Where?".data = none :=
  ⟨by decide, C2_split_raises_on_miss "silence".data "Where?".data (by decide)⟩

/-- Python `int()` applied to a non-negative-or-negative rational: truncation
toward zero.  The refusal protocol applies it to `question_size * ratio`
products (eval.py lines 326-328 and 364). -/
def pyInt (q : ℚ) : ℤ := if 0 ≤ q then Rat.floor q else -(Rat.floor (-q))

/-- Truncation toward zero, landing in `ℕ` (the values used by the script are
non-negative counts). -/
def pyIntNat (q : ℚ) : ℕ := (pyInt q).toNat

theorem rat_floor_eq_floor (q : ℚ) : Rat.floor q = ⌊q⌋ := rfl

theorem pyIntNat_eval (q : ℚ) (n : ℕ) (h0 : 0 ≤ q) (h : ⌊q⌋ = (n : ℤ)) :
    pyIntNat q = n := by
  simp [pyIntNat, pyInt, rat_floor_eq_floor, h0, h]

/-- Effective question size of a refusal trial (eval.py line 325):
`question_size = min(kb_size, question_size)`. -/
def effectiveQuestionSize (kb_size question_size : ℕ) : ℕ :=
  min kb_size question_size

/-- Change point of a refusal trial (eval.py line 328):
`int(question_size * (1 - outlier_ratio))` computed after the clamp. -/
def refusalChangePoint (kb_size question_size : ℕ) (outlier_ratio : ℚ) : ℕ :=
  pyIntNat ((effectiveQuestionSize kb_size question_size : ℚ) * (1 - outlier_ratio))

/-- Number of outlier questions of a refusal trial (eval.py lines 326, 364):
`int(question_size * outlier_ratio)` computed after the clamp. -/
def refusalOutlierCount (kb_size question_size : ℕ) (outlier_ratio : ℚ) : ℕ :=
  pyIntNat ((effectiveQuestionSize kb_size question_size : ℚ) * outlier_ratio)

/-- True labels of a refusal trial (eval.py line 364):
`[0] * change_point + [1] * int(question_size * outlier_ratio)`. -/
def refusalTrueLabel (kb_size question_size : ℕ) (outlier_ratio : ℚ) : List ℕ :=
  List.replicate (refusalChangePoint kb_size question_size outlier_ratio) 0 ++
    List.replicate (refusalOutlierCount kb_size question_size outlier_ratio) 1

theorem refusalTrueLabel_get (kb_size question_size : ℕ) (outlier_ratio : ℚ)
    (i : ℕ)
    (hi : i < refusalChangePoint kb_size question_size outlier_ratio +
      refusalOutlierCount kb_size question_size outlier_ratio) :
    (refusalTrueLabel kb_size question_size outlier_ratio)[i]? =
      some (if i < refusalChangePoint kb_size question_size outlier_ratio
        then 0 else 1) := by
  unfold refusalTrueLabel
  by_cases h : i < refusalChangePoint kb_size question_size outlier_ratio
  · rw [List.getElem?_append_left (by simpa using h), List.getElem?_replicate,
      if_pos h, if_pos h]
  · rw [if_neg h, List.getElem?_append_right (by simpa using h)]
    simp only [List.length_replicate]
    rw [List.getElem?_replicate, if_pos (by omega)]

/-- Claim C4 (counterexample): for `kb_size = 50`, `question_size = 100`,
`outlier_ratio = 1/5`, the code first clamps `question_size` to
`min(kb_size, question_size) = 50`, so the change point is `40`, not the
claimed `floor(question_size * (1 - outlier_ratio)) = 80`. -/
theorem C4_counterexample :
    refusalChangePoint 50 100 (1/5) = 40 ∧
    refusalChangePoint 50 100 (1/5) ≠ pyIntNat ((100 : ℚ) * (1 - 1/5)) := by
  have h40 : refusalChangePoint 50 100 (1/5) = 40 := by
    unfold refusalChangePoint effectiveQuestionSize
    exact pyIntNat_eval _ 40 (by norm_num) (by norm_num)
  have h80 : pyIntNat ((100 : ℚ) * (1 - 1/5)) = 80 :=
    pyIntNat_eval _ 80 (by norm_num) (by norm_num)
  exact ⟨h40, by rw [h40, h80]; decide⟩

/-- Claim C4 (amended): in a refusal trial whose `question_size` does not
exceed `kb_size` (so that the clamp `question_size = min(kb_size,
question_size)` is the identity), the change point equals
`floor(question_size * (1 - outlier_ratio))`, the label sequence is
`[0] * change_point ++ [1] * floor(question_size * outlier_ratio)`, and
position `i` carries label `0` exactly when `i < change_point`
(in-distribution rows first, outliers last). -/
theorem C4_refusal_labels (kb_size question_size : ℕ) (outlier_ratio : ℚ)
    (h : question_size ≤ kb_size) :
    refusalChangePoint kb_size question_size outlier_ratio =
      pyIntNat ((question_size : ℚ) * (1 - outlier_ratio)) ∧
    refusalTrueLabel kb_size question_size outlier_ratio =
      List.replicate (pyIntNat ((question_size : ℚ) * (1 - outlier_ratio))) 0 ++
        List.replicate (pyIntNat ((question_size : ℚ) * outlier_ratio)) 1 ∧
    ∀ i : ℕ, i < refusalChangePoint kb_size question_size outlier_ratio +
        refusalOutlierCount kb_size question_size outlier_ratio →
      (refusalTrueLabel kb_size question_size outlier_ratio)[i]? =
        some (if i < refusalChangePoint kb_size question_size outlier_ratio
          then 0 else 1) := by
  have heff : effectiveQuestionSize kb_size question_size = question_size :=
    min_eq_right h
  refine ⟨?_, ?_, fun i hi => refusalTrueLabel_get _ _ _ i hi⟩
  · unfold refusalChangePoint
    rw [heff]
  · unfold refusalTrueLabel refusalChangePoint refusalOutlierCount
    rw [heff]

/-- Claim C4 (witness): for `kb_size = 250`, `question_size = 100`,
`outlier_ratio = 1/5`, the change point is `80` and the labels are
`[0] * 80 ++ [1] * 20`. -/
theorem C4_witness :
    refusalChangePoint 250 100 (1/5) = 80 ∧
    refusalTrueLabel 250 100 (1/5) =
      List.replicate 80 0 ++ List.replicate 20 1 := by
  have h := C4_refusal_labels 250 100 (1/5) (by norm_num)
  have h1 : pyIntNat (((100 : ℕ) : ℚ) * (1 - 1/5)) = 80 :=
    pyIntNat_eval _ 80 (by norm_num) (by norm_num)
  have h2 : pyIntNat (((100 : ℕ) : ℚ) * (1/5)) = 20 :=
    pyIntNat_eval _ 20 (by norm_num) (by norm_num)
  exact ⟨by rw [h.1, h1], by rw [h.2.1, h1, h2]⟩

/-- Complement of the sampled KB index set (eval.py lines 322-323):
`np.arange(len(dataset))` filtered by `~np.isin(., kb_idx)`. -/
def outlierComplement (dataset_len : ℕ) (kb_idx : List ℕ) : List ℕ :=
  (List.range dataset_len).filter (fun i => !(kb_idx.contains i))

/-- Outlier index list of a refusal trial (eval.py lines 324-326): the
shuffled complement truncated to `int(question_size * outlier_ratio)` with
the clamped question size. -/
def outlierIdxList (shuffled : List ℕ) (kb_size question_size : ℕ)
    (outlier_ratio : ℚ) : List ℕ :=
  shuffled.take (refusalOutlierCount kb_size question_size outlier_ratio)

/-- Claim C5 (counterexample): with `dataset_len = 10`, `kb_idx = [0]`
(`kb_size = 1`), `question_size = 4`, `outlier_ratio = 1/2` and the identity
shuffle, the complement has 9 elements, so truncation to the claimed
`floor(question_size * outlier_ratio) = 2` entries would yield 2 outliers;
the code instead truncates to `floor(min(kb_size, question_size) *
outlier_ratio) = 0` entries. -/
theorem C5_counterexample :
    (outlierComplement 10 [0]).length = 9 ∧
    pyIntNat ((4 : ℚ) * (1/2)) = 2 ∧
    (outlierIdxList (outlierComplement 10 [0]) 1 4 (1/2)).length = 0 := by
  have hc : refusalOutlierCount 1 4 (1/2) = 0 := by
    unfold refusalOutlierCount effectiveQuestionSize
    exact pyIntNat_eval _ 0 (by norm_num) (by norm_num)
  refine ⟨by decide, pyIntNat_eval _ 2 (by norm_num) (by norm_num), ?_⟩
  unfold outlierIdxList
  rw [hc]
  rfl

/-- Claim C5 (amended): for every dataset size, sampled KB index list and
permutation of the complement, the outlier index list is the shuffled
complement truncated to `floor(min(kb_size, question_size) * outlier_ratio)`
entries; every produced outlier index is outside the active KB index set and
inside the dataset range, so the outlier set is disjoint from the active KB
set. -/
theorem C5_outliers_disjoint (dataset_len : ℕ) (kb_idx shuffled : List ℕ)
    (kb_size question_size : ℕ) (outlier_ratio : ℚ)
    (hperm : shuffled.Perm (outlierComplement dataset_len kb_idx)) :
    (∀ i ∈ outlierIdxList shuffled kb_size question_size outlier_ratio,
      i ∉ kb_idx ∧ i < dataset_len) ∧
    (outlierIdxList shuffled kb_size question_size outlier_ratio).length =
      min (refusalOutlierCount kb_size question_size outlier_ratio)
        shuffled.length := by
  constructor
  · intro i hi
    have hmem : i ∈ shuffled := List.take_subset _ _ hi
    have hcomp : i ∈ outlierComplement dataset_len kb_idx :=
      hperm.mem_iff.mp hmem
    obtain ⟨hr, hb⟩ := List.mem_filter.mp hcomp
    refine ⟨?_, List.mem_range.mp hr⟩
    simp at hb
    exact hb
  · exact List.length_take _ _

/-- Claim C5 (witness): the amended theorem at a concrete dataset of size 6,
active KB indices `[1, 3]` and the identity permutation of the complement:
the produced outlier index `0` lies outside the active KB index set. -/
theorem C5_witness :
    (0 : ℕ) ∈ outlierIdxList (outlierComplement 6 [1, 3]) 4 4 (1/2) ∧
    (0 : ℕ) ∉ ([1, 3] : List ℕ) ∧ (0 : ℕ) < 6 := by
  have hoc : refusalOutlierCount 4 4 (1/2) = 2 := by
    unfold refusalOutlierCount effectiveQuestionSize
    exact pyIntNat_eval _ 2 (by norm_num) (by norm_num)
  have hmem : (0 : ℕ) ∈ outlierIdxList (outlierComplement 6 [1, 3]) 4 4 (1/2) := by
    unfold outlierIdxList
    rw [hoc]
    decide
  exact ⟨hmem, (C5_outliers_disjoint 6 [1, 3] (outlierComplement 6 [1, 3])
    4 4 (1/2) (List.Perm.refl _)).1 0 hmem⟩

/-- Marker substring checked by the refusal decision rule (eval.py line 365):
`"sorry" in model_output`. -/
def refusalMarker : List Char := "sorry".data

/-- Prediction row of a refusal trial (eval.py line 365):
`[int("sorry" in model_output) for model_output in model_outputs]`. -/
def refusalPrediction (model_outputs : List (List Char)) : List ℕ :=
  model_outputs.map (fun s => if containsSub refusalMarker s then 1 else 0)

/-- Numeric result of a refusal trial (eval.py line 370):
`np.array([prediction, true_label])`. -/
def refusalResultArray (model_outputs : List (List Char))
    (kb_size question_size : ℕ) (outlier_ratio : ℚ) : List (List ℕ) :=
  [refusalPrediction model_outputs,
    refusalTrueLabel kb_size question_size outlier_ratio]

/-- Claim C6: in a refusal trial (with as many generated outputs as labels,
i.e. the outlier pool was large enough), the prediction for each question is
`1` exactly when the marker substring `"sorry"` occurs (case-sensitively) in
the generated text for that question, and the numeric result is a 2-row
array whose first row is the predictions and whose second row is the true
labels, aligned position by position. -/
theorem C6_refusal_decision (model_outputs : List (List Char))
    (kb_size question_size : ℕ) (outlier_ratio : ℚ)
    (hlen : model_outputs.length =
      refusalChangePoint kb_size question_size outlier_ratio +
        refusalOutlierCount kb_size question_size outlier_ratio) :
    (refusalResultArray model_outputs kb_size question_size outlier_ratio).length
      = 2 ∧
    (refusalResultArray model_outputs kb_size question_size outlier_ratio)[0]?
      = some (refusalPrediction model_outputs) ∧
    (refusalResultArray model_outputs kb_size question_size outlier_ratio)[1]?
      = some (refusalTrueLabel kb_size question_size outlier_ratio) ∧
    (refusalPrediction model_outputs).length = model_outputs.length ∧
    (refusalTrueLabel kb_size question_size outlier_ratio).length
      = model_outputs.length ∧
    (∀ i : ℕ, ∀ s : List Char, model_outputs[i]? = some s →
      (refusalPrediction model_outputs)[i]?
        = some (if containsSub refusalMarker s then 1 else 0)) ∧
    (∀ i : ℕ, i < model_outputs.length →
      (refusalTrueLabel kb_size question_size outlier_ratio)[i]?
        = some (if i < refusalChangePoint kb_size question_size outlier_ratio
            then 0 else 1)) := by
  refine ⟨rfl, rfl, rfl, List.length_map _ _, ?_, ?_, ?_⟩
  · simp [refusalTrueLabel, hlen]
  · intro i s hs
    rw [refusalPrediction, List.getElem?_map, hs]
    rfl
  · intro i hi
    exact refusalTrueLabel_get kb_size question_size outlier_ratio i
      (by omega)

/-- Claim C6 (witness): two outputs, the first containing the marker, in a
trial with change point 1 and one outlier. -/
theorem C6_witness :
    (refusalResultArray
      ["I am sorry I cannot find relevant information in the KB".data,
        "The color of X is red".data] 2 2 (1/2)).length = 2 ∧
    (refusalPrediction
      ["I am sorry I cannot find relevant information in the KB".data,
        "The color of X is red".data])[0]? = some 1 ∧
    (refusalPrediction
      ["I am sorry I cannot find relevant information in the KB".data,
        "The color of X is red".data])[1]? = some 0 := by
  have hcp : refusalChangePoint 2 2 (1/2) = 1 := by
    unfold refusalChangePoint effectiveQuestionSize
    exact pyIntNat_eval _ 1 (by norm_num) (by norm_num)
  have hoc : refusalOutlierCount 2 2 (1/2) = 1 := by
    unfold refusalOutlierCount effectiveQuestionSize
    exact pyIntNat_eval _ 1 (by norm_num) (by norm_num)
  have h := C6_refusal_decision
    ["I am sorry I cannot find relevant information in the KB".data,
      "The color of X is red".data] 2 2 (1/2) (by rw [hcp, hoc]; rfl)
  refine ⟨h.1, ?_, ?_⟩
  · rw [h.2.2.2.2.2.1 0 _ rfl]
    decide
  · rw [h.2.2.2.2.2.1 1 _ rfl]
    decide

/-- Error message raised by `eval_accuracy` for an oversized KB request
(eval.py line 828). -/
def kbSizeErrorMsg : List Char :=
  "The KB size is greater than the dataset size".data

/-- KB subset selection of `eval_accuracy` (eval.py lines 825-831): full
range when `kb_size == len(dataset)`, an `IndexError` when it is larger
(modelled by `Except.error`), and otherwise `np.random.choice(len(dataset),
kb_size, replace=False)`, modelled by the abstract collaborator `choice`. -/
def evalAccuracySelect (dataset_len kb_size : ℕ)
    (choice : ℕ → ℕ → List ℕ) : Except (List Char) (List ℕ) :=
  if kb_size = dataset_len then Except.ok (List.range dataset_len)
  else if kb_size > dataset_len then Except.error kbSizeErrorMsg
  else Except.ok (choice dataset_len kb_size)

/-- Generation phase of `eval_accuracy` (eval.py line 856) runs strictly
after the selection step; an error in selection aborts before it. -/
def evalAccuracyRun (γ : Type) (dataset_len kb_size : ℕ)
    (choice : ℕ → ℕ → List ℕ) (generate : List ℕ → γ) :
    Except (List Char) γ :=
  (evalAccuracySelect dataset_len kb_size choice).map generate

/-- Claim C7: if the requested `kb_size` exceeds the dataset size, the
evaluation fails fast with the out-of-range error — and the outcome does not
depend on the generation function, so no generation work happens; if
`kb_size` equals the dataset size it does not raise and the selected index
set covers the full dataset; otherwise, `kb_size` indices are chosen without
replacement (under the `np.random.choice(replace=False)` contract assumed of
the collaborator). -/
theorem C7_kb_size_boundary (γ : Type) (dataset_len kb_size : ℕ)
    (choice : ℕ → ℕ → List ℕ)
    (hchoice : kb_size < dataset_len →
      (choice dataset_len kb_size).length = kb_size ∧
      (choice dataset_len kb_size).Nodup ∧
      ∀ i ∈ choice dataset_len kb_size, i < dataset_len) :
    (dataset_len < kb_size →
      evalAccuracySelect dataset_len kb_size choice
        = Except.error kbSizeErrorMsg ∧
      ∀ g₁ g₂ : List ℕ → γ,
        evalAccuracyRun γ dataset_len kb_size choice g₁ =
          evalAccuracyRun γ dataset_len kb_size choice g₂) ∧
    (kb_size = dataset_len →
      evalAccuracySelect dataset_len kb_size choice
        = Except.ok (List.range dataset_len) ∧
      ∀ i < dataset_len, i ∈ List.range dataset_len) ∧
    (kb_size < dataset_len →
      evalAccuracySelect dataset_len kb_size choice
        = Except.ok (choice dataset_len kb_size) ∧
      (choice dataset_len kb_size).length = kb_size ∧
      (choice dataset_len kb_size).Nodup ∧
      ∀ i ∈ choice dataset_len kb_size, i < dataset_len) := by
  refine ⟨fun hgt => ?_, fun heq => ?_, fun hlt => ?_⟩
  · have hne : kb_size ≠ dataset_len := by omega
    have hsel : evalAccuracySelect dataset_len kb_size choice
        = Except.error kbSizeErrorMsg := by
      simp [evalAccuracySelect, hne, hgt]
    exact ⟨hsel, fun g₁ g₂ => by unfold evalAccuracyRun; rw [hsel]; rfl⟩
  · subst heq
    exact ⟨by simp [evalAccuracySelect], fun i hi => List.mem_range.mpr hi⟩
  · have hne : kb_size ≠ dataset_len := by omega
    have hngt : ¬kb_size > dataset_len := by omega
    obtain ⟨h1, h2, h3⟩ := hchoice hlt
    exact ⟨by simp [evalAccuracySelect, hne, hngt], h1, h2, h3⟩

/-- Claim C7 (witness): dataset of size 3, `kb_size = 2`, and a concrete
without-replacement choice `[0, 2]`. -/
theorem C7_witness :
    evalAccuracySelect 3 2 (fun _ _ => [0, 2]) = Except.ok [0, 2] ∧
    ([0, 2] : List ℕ).length = 2 ∧
    ([0, 2] : List ℕ).Nodup ∧
    ∀ i ∈ ([0, 2] : List ℕ), i < 3 :=
  (C7_kb_size_boundary ℕ 3 2 (fun _ _ => [0, 2])
    (fun _ => ⟨rfl, by decide, by decide⟩)).2.2 (by omega)

/-- Keyword arguments of the `model.generate` call issued by
`answer_question` (eval.py lines 109-116).  The three `Option`-valued
`*_arg` fields record keyword arguments that could carry the
sparsification/scaling settings into the collaborator; the source call
passes `input_ids`, `attention_mask`, `kb_kvs`, `max_new_tokens=150`,
`tokenizer` and `output_attentions=True` and nothing else, so all three
stay `none`.  Fields, in order: `kb_kvs`, `max_new_tokens`,
`output_attentions`, `dynamic_sparsify_arg`, `topk_size_arg`,
`kb_scale_factor_arg`. -/
structure GenerateCall (κ : Type) where
  kb_kvs : Option κ
  max_new_tokens : ℕ
  output_attentions : Bool
  dynamic_sparsify_arg : Option Bool
  topk_size_arg : Option ℤ
  kb_scale_factor_arg : Option ℤ

/-- Embeds `answer_question` (eval.py lines 86-122): the locally computed
`dynamic_sparsify` flag (lines 102-105), the locally rebound
`kb_scale_factor` (lines 106-107, `-1` mapped to `None`), and the
`model.generate` call actually issued (lines 109-116).  Returns
`(dynamic_sparsify, rebound kb_scale_factor, generate call)`. -/
def answer_question_generate (κ : Type) (topk_size kb_scale_factor : ℤ)
    (kb : Option κ) : Bool × Option ℤ × GenerateCall κ :=
  (if topk_size ≠ -1 then true else false,
    if kb_scale_factor = -1 then none else some kb_scale_factor,
    ⟨kb, 150, true, none, none, none⟩)

/-- Claim C3: `answer_question` computes `dynamic_sparsify = True` whenever
`topk_size != -1` and maps the sentinel `kb_scale_factor = -1` to `None`,
but the `model.generate` call it issues carries none of `dynamic_sparsify`,
`topk_size` or `kb_scale_factor` — the computed values are dropped, so the
collaborator never receives them (it does receive `kb_kvs` and
`max_new_tokens=150`). -/
theorem C3_sparsify_flags_dropped (κ : Type) (topk_size kb_scale_factor : ℤ)
    (kb : Option κ) :
    (topk_size ≠ -1 →
      (answer_question_generate κ topk_size kb_scale_factor kb).1 = true) ∧
    (kb_scale_factor = -1 →
      (answer_question_generate κ topk_size kb_scale_factor kb).2.1 = none) ∧
    (answer_question_generate κ topk_size kb_scale_factor kb).2.2.dynamic_sparsify_arg
      = none ∧
    (answer_question_generate κ topk_size kb_scale_factor kb).2.2.topk_size_arg
      = none ∧
    (answer_question_generate κ topk_size kb_scale_factor kb).2.2.kb_scale_factor_arg
      = none ∧
    (answer_question_generate κ topk_size kb_scale_factor kb).2.2.kb_kvs = kb ∧
    (answer_question_generate κ topk_size kb_scale_factor kb).2.2.max_new_tokens
      = 150 :=
  ⟨fun h => by simp [answer_question_generate, h],
    fun h => by simp [answer_question_generate, h],
    rfl, rfl, rfl, rfl, rfl⟩

/-- Claim C3 (witness): at `topk_size = 5`, `kb_scale_factor = -1`, the
local flag is computed as `True` and the sentinel as `None`, yet the
generate call carries neither. -/
theorem C3_witness :
    (answer_question_generate Unit 5 (-1) (some ())).1 = true ∧
    (answer_question_generate Unit 5 (-1) (some ())).2.1 = none ∧
    (answer_question_generate Unit 5 (-1) (some ())).2.2.dynamic_sparsify_arg
      = none ∧
    (answer_question_generate Unit 5 (-1) (some ())).2.2.kb_scale_factor_arg
      = none := by
  have h := C3_sparsify_flags_dropped Unit 5 (-1) (some ())
  exact ⟨h.1 (by decide), h.2.1 rfl, h.2.2.1, h.2.2.2.2.1⟩

/-- One knowledge-base row as consumed by `perform_eval` in single-entity
mode (fields `Q`, `A` and `description` of the dataset records). -/
structure EvalRow where
  Q : List Char
  A : List Char
  description : List Char

/-- Question cap of `perform_eval` (eval.py lines 187-192):
`subset_size = min(400, len(test_kb))`. -/
def subsetSize (test_kb_len : ℕ) : ℕ := min 400 test_kb_len

/-- Rows visited by the generation loop of `perform_eval` (eval.py line
194): `test_kb[:subset_size]`; each visited row triggers exactly one
`answer_question` call. -/
def generatedRows (test_kb : List EvalRow) : List EvalRow :=
  test_kb.take (subsetSize test_kb.length)

/-- Scored outputs of the `perform_eval` loop in single-entity mode
(eval.py lines 194-249), with the generation-plus-split stage abstracted as
`answerer` and the per-output regex stage (lines 239-243, which rewrites
each output individually and never changes the count) abstracted as
`extractFn`.  A visited row is dropped from scoring exactly when
`remove_sorry` is set and its generated output contains `"sorry"` (lines
234-236); otherwise its extracted output and its `description` are appended
to `model_outputs` and `answers` (lines 241, 249). -/
def performEvalScored (test_kb : List EvalRow) (answerer : EvalRow → List Char)
    (extractFn : List Char → List Char) ( remove_sorry : Bool) :
    List (List Char) × List (List Char) :=
  let kept := (generatedRows test_kb).filter
    (fun row => !( remove_sorry && containsSub refusalMarker (answerer row)))
  (kept.map (fun row => extractFn (answerer row)),
    kept.map (fun row => row.description))

/-- Claim C10 (counterexample): with a single-row KB (`kb_size = 1`),
`remove_sorry = True` and a generated output containing `"sorry"`, the loop
generates for `min(400, 1) = 1` question but scores `0` of them, so
`perform_eval` does not score exactly `min(400, kb_size)` questions. -/
theorem C10_counterexample :
    subsetSize 1 = 1 ∧
    (generatedRows [⟨"Q?".data, "A".data, "red".data⟩]).length = 1 ∧
    ((performEvalScored [⟨"Q?".data, "A".data, "red".data⟩]
      (fun _ => "I am sorry I cannot find relevant information in the KB".data)
      (fun s => s) true).1).length = 0 := by
  refine ⟨by decide, by decide, by decide⟩

/-- Claim C10 (amended): `perform_eval` generates answers for exactly
`min(400, kb_size)` questions (`kb_size = len(test_kb)`); when
`remove_sorry` is false every generated answer is scored, so exactly
`min(400, kb_size)` predictions and references are scored (when
`remove_sorry` is set, generated outputs containing `"sorry"` are dropped
from scoring); and rows beyond the first `min(400, kb_size)` rows of the
sampled KB never contribute: any KB agreeing on that prefix yields
identical scored outputs. -/
theorem C10_question_cap (test_kb : List EvalRow)
    (answerer : EvalRow → List Char) (extractFn : List Char → List Char)
    ( remove_sorry : Bool) :
    (generatedRows test_kb).length = min 400 test_kb.length ∧
    ( remove_sorry = false →
      (performEvalScored test_kb answerer extractFn remove_sorry).1.length
        = min 400 test_kb.length ∧
      (performEvalScored test_kb answerer extractFn remove_sorry).2.length
        = min 400 test_kb.length) ∧
    (∀ test_kb₂ : List EvalRow,
      test_kb₂.take (subsetSize test_kb₂.length)
        = test_kb.take (subsetSize test_kb.length) →
      performEvalScored test_kb₂ answerer extractFn remove_sorry
        = performEvalScored test_kb answerer extractFn remove_sorry) := by
  have hlen : (generatedRows test_kb).length = min 400 test_kb.length := by
    simp only [generatedRows, subsetSize, List.length_take]
    omega
  refine ⟨hlen, fun hrs => ?_, fun kb₂ htake => ?_⟩
  · subst hrs
    have hfil : (generatedRows test_kb).filter
        (fun row => !(false && containsSub refusalMarker (answerer row)))
        = generatedRows test_kb := by
      simp
    constructor <;>
      simp only [performEvalScored, hfil, List.length_map, hlen]
  · unfold performEvalScored generatedRows
    rw [htake]

/-- Layers evaluated by `eval_accuracy` (eval.py line 872):
`range(0, 32, kb_layer_frequency)`. -/
def evalLayers (kb_layer_frequency : ℕ) : List ℕ :=
  (List.range 32).filter (fun i => i % kb_layer_frequency == 0)

/-- Truncation of an attention artifact's last axis to `kb_size` columns
(eval.py line 873, `[..., :kb_size]`). -/
def truncateCols (kb_size : ℕ) (w : List (List (List ℤ))) :
    List (List (List ℤ)) :=
  w.map (fun mat => mat.map (fun row => row.take kb_size))

/-- Sum over the middle axis of the reshaped artifact (eval.py line 876,
`weight.sum(1)`): one score vector of length `kb_size` per batch element. -/
def sumMiddle (kb_size : ℕ) (w : List (List (List ℤ))) : List (List ℤ) :=
  w.map (fun mat =>
    mat.foldl (fun acc row => List.zipWith (· + ·) acc row)
      (List.replicate kb_size 0))

/-- Score vectors of one layer's artifact: truncate, then sum the middle
axis (the artifact is taken in its reshaped form
`[batch, heads_or_steps, columns]`). -/
def layerScores (kb_size : ℕ) (w : List (List (List ℤ))) : List (List ℤ) :=
  sumMiddle kb_size (truncateCols kb_size w)

/-- Worker for `np.argmax`: first index attaining the maximum (a later
element replaces the current best only when strictly greater). -/
def argmaxGo : List ℤ → ℤ → ℕ → ℕ → ℕ
  | [], _, bestIdx, _ => bestIdx
  | x :: xs, bestVal, bestIdx, cur =>
    if bestVal < x then argmaxGo xs x cur (cur + 1)
    else argmaxGo xs bestVal bestIdx (cur + 1)

/-- `np.argmax` over a score vector: index of the first maximum (0 on the
empty list, matching no meaningful input). -/
def argmaxIdx : List ℤ → ℕ
  | [] => 0
  | x :: xs => argmaxGo xs x 0 1

/-- Top-1 accuracy of one layer (eval.py lines 874-876):
`(weight.sum(1).argmax(1) == np.arange(batch)).mean()`. -/
def top1Accuracy (scores : List (List ℤ)) : ℚ :=
  (((List.range scores.length).filter
      (fun i => argmaxIdx (scores.getD i []) == i)).length : ℚ) /
    (scores.length : ℚ)

/-- Per-layer top-1 accuracies reported by `eval_accuracy` (eval.py lines
870-879), with the stored artifacts abstracted as the map `artifacts` from
layer index to loaded array. -/
def scoreAttentionTop1 (kb_layer_frequency : ℕ)
    (artifacts : ℕ → List (List (List ℤ))) (kb_size : ℕ) : List ℚ :=
  (evalLayers kb_layer_frequency).map
    (fun idx => top1Accuracy (layerScores kb_size (artifacts idx)))

/-- Strict peak of a score vector at index `i`: every other in-range entry
is strictly smaller. -/
def strictPeakAt (l : List ℤ) (i : ℕ) : Prop :=
  i < l.length ∧ ∀ j, j < l.length → j ≠ i → l.getD j 0 < l.getD i 0

instance strictPeakAt_decidable (l : List ℤ) (i : ℕ) :
    Decidable (strictPeakAt l i) := by
  unfold strictPeakAt
  infer_instance

theorem getD_eq_of_lt (l : List ℤ) (i : ℕ) (h : i < l.length) :
    l.getD i 0 = l[i] := by
  simp [List.getD, List.getElem?_eq_getElem h]

theorem argmaxGo_of_le (xs : List ℤ) : ∀ (bestVal : ℤ) (bestIdx cur : ℕ),
    (∀ x ∈ xs, x ≤ bestVal) → argmaxGo xs bestVal bestIdx cur = bestIdx := by
  induction xs with
  | nil => intro bestVal bestIdx cur _; rfl
  | cons x xs ih =>
    intro bestVal bestIdx cur h
    have hx : x ≤ bestVal := h x (List.mem_cons_self x xs)
    simp only [argmaxGo, if_neg (not_lt.mpr hx)]
    exact ih bestVal bestIdx (cur + 1)
      (fun y hy => h y (List.mem_cons_of_mem x hy))

theorem argmaxGo_peak (xs : List ℤ) : ∀ (bestVal : ℤ) (bestIdx cur i : ℕ),
    i < xs.length → bestVal < xs.getD i 0 →
    (∀ j, j < xs.length → j ≠ i → xs.getD j 0 < xs.getD i 0) →
    argmaxGo xs bestVal bestIdx cur = cur + i := by
  induction xs with
  | nil => intro _ _ _ i hi; simp at hi
  | cons x xs ih =>
    intro bestVal bestIdx cur i hi hgt hpeak
    cases i with
    | zero =>
      have hb : bestVal < x := by simpa using hgt
      have hle : ∀ y ∈ xs, y ≤ x := by
        intro y hy
        obtain ⟨j, hj, rfl⟩ := List.mem_iff_getElem.mp hy
        have hlt := hpeak (j + 1) (by simpa using hj) (Nat.succ_ne_zero j)
        rw [List.getD_cons_succ, List.getD_cons_zero,
          getD_eq_of_lt xs j hj] at hlt
        exact le_of_lt hlt
      simp only [argmaxGo, if_pos hb]
      rw [argmaxGo_of_le xs x cur (cur + 1) hle]
      omega
    | succ k =>
      have hk : k < xs.length := by simpa using hi
      have hpeak' : ∀ j, j < xs.length → j ≠ k →
          xs.getD j 0 < xs.getD k 0 := by
        intro j hj hne
        have := hpeak (j + 1) (by simpa using hj) (by omega)
        simpa using this
      by_cases hb : bestVal < x
      · simp only [argmaxGo, if_pos hb]
        have hxk : x < xs.getD k 0 := by
          have := hpeak 0 (by simp) (by omega)
          simpa using this
        rw [ih x cur (cur + 1) k hk hxk hpeak']
        omega
      · simp only [argmaxGo, if_neg hb]
        have hbk : bestVal < xs.getD k 0 := by simpa using hgt
        rw [ih bestVal bestIdx (cur + 1) k hk hbk hpeak']
        omega

theorem argmaxIdx_of_strictPeak (l : List ℤ) (i : ℕ) (h : strictPeakAt l i) :
    argmaxIdx l = i := by
  obtain ⟨hi, hpeak⟩ := h
  cases l with
  | nil => simp at hi
  | cons x xs =>
    cases i with
    | zero =>
      show argmaxGo xs x 0 1 = 0
      apply argmaxGo_of_le
      intro y hy
      obtain ⟨j, hj, rfl⟩ := List.mem_iff_getElem.mp hy
      have hlt := hpeak (j + 1) (by simpa using hj) (Nat.succ_ne_zero j)
      rw [List.getD_cons_succ, List.getD_cons_zero,
        getD_eq_of_lt xs j hj] at hlt
      exact le_of_lt hlt
    | succ k =>
      show argmaxGo xs x 0 1 = k + 1
      have hk : k < xs.length := by simpa using hi
      have hxk : x < xs.getD k 0 := by
        have := hpeak 0 (by simp) (by omega)
        simpa using this
      have hpeak' : ∀ j, j < xs.length → j ≠ k →
          xs.getD j 0 < xs.getD k 0 := by
        intro j hj hne
        have := hpeak (j + 1) (by simpa using hj) (by omega)
        simpa using this
      rw [argmaxGo_peak xs x 0 1 k hk hxk hpeak']
      omega

theorem top1Accuracy_eq_one (scores : List (List ℤ))
    (hne : scores.length ≠ 0)
    (hpeak : ∀ i, i < scores.length → strictPeakAt (scores.getD i []) i) :
    top1Accuracy scores = 1 := by
  unfold top1Accuracy
  have hfil : (List.range scores.length).filter
      (fun i => argmaxIdx (scores.getD i []) == i)
      = List.range scores.length := by
    apply List.filter_eq_self.mpr
    intro i hi
    have := argmaxIdx_of_strictPeak _ _ (hpeak i (List.mem_range.mp hi))
    simpa using this
  rw [hfil, List.length_range, div_self (by exact_mod_cast hne)]

/-- Claim C1: for each evaluated layer (every `kb_layer_frequency`-th of the
32 layers), the scoring step truncates the loaded artifact's last axis to
`kb_size` columns, sums over the middle axis of its
`[batch, heads_or_steps, kb_size]` form, and reports as top-1 accuracy the
mean over batch rows of `argmax(row i) == i`; whenever every row's summed
score vector has its strict peak at its own index, each reported accuracy
is exactly 1. -/
theorem C1_attention_top1 (kb_layer_frequency kb_size : ℕ)
    (artifacts : ℕ → List (List (List ℤ)))
    (hne : ∀ idx ∈ evalLayers kb_layer_frequency,
      (layerScores kb_size (artifacts idx)).length ≠ 0)
    (hpeak : ∀ idx ∈ evalLayers kb_layer_frequency,
      ∀ i, i < (layerScores kb_size (artifacts idx)).length →
        strictPeakAt ((layerScores kb_size (artifacts idx)).getD i []) i) :
    scoreAttentionTop1 kb_layer_frequency artifacts kb_size
      = List.replicate (evalLayers kb_layer_frequency).length 1 := by
  unfold scoreAttentionTop1
  apply List.eq_replicate_iff.mpr
  refine ⟨List.length_map _ _, ?_⟩
  intro b hb
  obtain ⟨idx, hidx, rfl⟩ := List.mem_map.mp hb
  exact top1Accuracy_eq_one _ (hne idx hidx) (hpeak idx hidx)

/-- Concrete attention artifact of shape `[4, 2, 4]` whose row `i` peaks at
column `i` in both middle slices. -/
def exampleArtifact : List (List (List ℤ)) :=
  [[[9, 1, 1, 1], [9, 1, 1, 1]],
   [[1, 9, 1, 1], [1, 9, 1, 1]],
   [[1, 1, 9, 1], [1, 1, 9, 1]],
   [[1, 1, 1, 9], [1, 1, 1, 9]]]

/-- Claim C1 (witness): with `kb_layer_frequency = 3` (11 evaluated layers)
and the `[4, 2, 4]` artifact peaking on the diagonal at every layer, every
reported top-1 accuracy is 1. -/
theorem C1_witness :
    scoreAttentionTop1 3 (fun _ => exampleArtifact) 4 = List.replicate 11 1 := by
  have h := C1_attention_top1 3 4 (fun _ => exampleArtifact)
    (by decide) (by decide)
  rw [show (evalLayers 3).length = 11 from by decide] at h
  exact h

/-- Lazy capture `(.*?)` of the answer-extraction regexes followed by a
one-character terminator class: the shortest run of non-newline characters
up to a character accepted by `term`; returns the captured run and the
remainder after the terminator, failing at a newline or at the end of the
string. -/
def lazyCapture (term : Char → Bool) :
    List Char → Option (List Char × List Char)
  | [] => none
  | c :: rest =>
    if term c then some ([], rest)
    else if c = '\n' then none
    else
      match lazyCapture term rest with
      | none => none
      | some (cap, rem) => some (c :: cap, rem)

/-- Alternation `(?:is|are)` followed by a space, tried at the current
position (`is` before `are`; the branches can never both match). -/
def matchIsAre : List Char → Option (List Char)
  | 'i' :: 's' :: ' ' :: rest => some rest
  | 'a' :: 'r' :: 'e' :: ' ' :: rest => some rest
  | _ => none

/-- One match attempt of the prediction pattern
`(?:is|are) (.*?)(?:\.|;)` (eval.py line 245). -/
def tryMatchPred (s : List Char) : Option (List Char × List Char) :=
  match matchIsAre s with
  | none => none
  | some rest => lazyCapture (fun c => c == '.' || c == ';') rest

/-- One match attempt of the reference pattern `(?:is|are) (.*?);`
(eval.py line 248). -/
def tryMatchRef (s : List Char) : Option (List Char × List Char) :=
  match matchIsAre s with
  | none => none
  | some rest => lazyCapture (fun c => c == ';') rest

/-- Fuel-driven `re.findall`: scan left to right, taking each leftmost
non-overlapping match's capture group and resuming after the match, else
advancing one character.  Every step consumes at least one character, so
`length + 1` fuel always suffices. -/
def findallGo (tryMatch : List Char → Option (List Char × List Char)) :
    ℕ → List Char → List (List Char)
  | 0, _ => []
  | _ + 1, [] => []
  | fuel + 1, c :: rest =>
    match tryMatch (c :: rest) with
    | some (cap, rem) => cap :: findallGo tryMatch fuel rem
    | none => findallGo tryMatch fuel rest

/-- `re.findall(r'(?:is|are) (.*?)(?:\.|;)', model_output)`
(eval.py lines 245-246). -/
def predMatches (s : List Char) : List (List Char) :=
  findallGo tryMatchPred (s.length + 1) s

/-- `re.findall(r'(?:is|are) (.*?);', answer)` (eval.py line 248). -/
def refMatches (s : List Char) : List (List Char) :=
  findallGo tryMatchRef (s.length + 1) s

/-- Prediction normalization (eval.py line 247): `'; '.join(matches)`. -/
def predNormalize (s : List Char) : List Char :=
  List.intercalate "; ".data (predMatches s)

/-- Reference normalization (eval.py line 248): `';'.join(matches)`. -/
def refNormalize (s : List Char) : List Char :=
  List.intercalate ";".data (refMatches s)

theorem lazyCapture_eq_of_no_period (s : List Char)
    (h : ∀ c ∈ s, c ≠ '.') :
    lazyCapture (fun c => c == '.' || c == ';') s
      = lazyCapture (fun c => c == ';') s := by
  induction s with
  | nil => rfl
  | cons c rest ih =>
    have hc : c ≠ '.' := h c (List.mem_cons_self c rest)
    have hcb : (c == '.') = false := beq_eq_false_iff_ne.mpr hc
    simp only [lazyCapture, hcb, Bool.false_or]
    rw [ih (fun d hd => h d (List.mem_cons_of_mem c hd))]

theorem lazyCapture_rem_subset (term : Char → Bool) :
    ∀ (s cap rem : List Char), lazyCapture term s = some (cap, rem) →
      ∀ c ∈ rem, c ∈ s := by
  intro s
  induction s with
  | nil => intro cap rem h; exact absurd h (by simp [lazyCapture])
  | cons c rest ih =>
    intro cap rem h d hd
    simp only [lazyCapture] at h
    by_cases ht : term c = true
    · rw [if_pos ht] at h
      cases h
      exact List.mem_cons_of_mem c hd
    · rw [if_neg ht] at h
      by_cases hn : c = '\n'
      · rw [if_pos hn] at h
        exact absurd h (by simp)
      · rw [if_neg hn] at h
        cases hlc : lazyCapture term rest with
        | none => rw [hlc] at h; exact absurd h (by simp)
        | some p =>
          obtain ⟨cap', rem'⟩ := p
          rw [hlc] at h
          simp only [Option.some.injEq, Prod.mk.injEq] at h
          obtain ⟨hcap, hrem⟩ := h
          exact List.mem_cons_of_mem c
            (ih cap' rem' hlc d (by rw [hrem]; exact hd))

theorem matchIsAre_rest_subset (s rest : List Char)
    (h : matchIsAre s = some rest) : ∀ c ∈ rest, c ∈ s := by
  unfold matchIsAre at h
  split at h
  · cases h
    intro c hc
    exact List.mem_cons_of_mem _ (List.mem_cons_of_mem _
      (List.mem_cons_of_mem _ hc))
  · cases h
    intro c hc
    exact List.mem_cons_of_mem _ (List.mem_cons_of_mem _
      (List.mem_cons_of_mem _ (List.mem_cons_of_mem _ hc)))
  · exact absurd h (by simp)

theorem tryMatch_eq_of_no_period (s : List Char) (h : ∀ c ∈ s, c ≠ '.') :
    tryMatchPred s = tryMatchRef s := by
  unfold tryMatchPred tryMatchRef
  cases hm : matchIsAre s with
  | none => rfl
  | some rest =>
    exact lazyCapture_eq_of_no_period rest
      (fun c hc => h c (matchIsAre_rest_subset s rest hm c hc))

theorem tryMatchPred_rem_subset (s cap rem : List Char)
    (h : tryMatchPred s = some (cap, rem)) : ∀ c ∈ rem, c ∈ s := by
  unfold tryMatchPred at h
  cases hm : matchIsAre s with
  | none => rw [hm] at h; exact absurd h (by simp)
  | some rest =>
    rw [hm] at h
    intro c hc
    exact matchIsAre_rest_subset s rest hm c
      (lazyCapture_rem_subset _ rest cap rem h c hc)

theorem findallGo_pred_eq_ref (fuel : ℕ) :
    ∀ s : List Char, (∀ c ∈ s, c ≠ '.') →
      findallGo tryMatchPred fuel s = findallGo tryMatchRef fuel s := by
  induction fuel with
  | zero => intro s _; rfl
  | succ fuel ih =>
    intro s h
    cases s with
    | nil => rfl
    | cons c rest =>
      show (match tryMatchPred (c :: rest) with
        | some (cap, rem) => cap :: findallGo tryMatchPred fuel rem
        | none => findallGo tryMatchPred fuel rest) =
        (match tryMatchRef (c :: rest) with
        | some (cap, rem) => cap :: findallGo tryMatchRef fuel rem
        | none => findallGo tryMatchRef fuel rest)
      rw [tryMatch_eq_of_no_period (c :: rest) h]
      cases hm : tryMatchRef (c :: rest) with
      | none =>
        exact ih rest (fun d hd => h d (List.mem_cons_of_mem c hd))
      | some p =>
        obtain ⟨cap, rem⟩ := p
        have hsub : ∀ d ∈ rem, d ∈ c :: rest := by
          intro d hd
          refine tryMatchPred_rem_subset (c :: rest) cap rem ?_ d hd
          rw [tryMatch_eq_of_no_period (c :: rest) h, hm]
        show cap :: findallGo tryMatchPred fuel rem
          = cap :: findallGo tryMatchRef fuel rem
        rw [ih rem (fun d hd => h d (hsub d hd))]

/-- Claim C8 (counterexample): the two normalizations are not identical —
for the text `"is red; are blue."` the prediction pattern (terminator `.`
or `;`) joined with `"; "` yields `"red; blue"`, while the reference
pattern (terminator `;` only) joined with `";"` yields `"red"` — so
predictions and references do not use the same pattern and joining. -/
theorem C8_counterexample :
    predNormalize "is red; are blue.".data
      ≠ refNormalize "is red; are blue.".data ∧
    predNormalize "is red; are blue.".data = "red; blue".data ∧
    refNormalize "is red; are blue.".data = "red".data := by
  refine ⟨by decide, by decide, by decide⟩

/-- Claim C8 (amended): the prediction is extracted with pattern
`(?:is|are) (.*?)(?:\.|;)` and joined with `"; "`, while the ground-truth
answer is normalized with pattern `(?:is|are) (.*?);` and joined with
`";"`; the terminator classes and the join separators differ, but on any
string containing no `'.'` character the two patterns extract identical
match lists. -/
theorem C8_matches_eq_of_no_period (s : List Char)
    (h : ∀ c ∈ s, c ≠ '.') : predMatches s = refMatches s :=
  findallGo_pred_eq_ref (s.length + 1) s h

/-- Claim C8 (witness): on the period-free text `"is red; are blue;"` the
two patterns extract the same match list. -/
theorem C8_witness :
    (∀ c ∈ "is red; are blue;".data, c ≠ '.') ∧
    predMatches "is red; are blue;".data
      = refMatches "is red; are blue;".data :=
  ⟨by decide, C8_matches_eq_of_no_period "is red; are blue;".data (by decide)⟩

/-- Python `S.replace(old, '')` for a non-empty `old`: delete all
non-overlapping occurrences, scanning left to right (the guard on `old`
makes the function total; every call in the script uses a non-empty
marker). -/
def pyReplaceEmpty (old : List Char) : List Char → List Char
  | [] => []
  | c :: rest =>
    if h : old ≠ [] ∧ old.isPrefixOf (c :: rest) then
      pyReplaceEmpty old ((c :: rest).drop old.length)
    else
      c :: pyReplaceEmpty old rest
termination_by s => s.length
decreasing_by
  · have hpos : 0 < old.length := List.length_pos.mpr h.1
    simp only [List.length_drop, List.length_cons]
    omega
  · simp only [List.length_cons]
    omega

/-- Llama question formatting `_format_Q_llama` (eval.py lines 55-58). -/
def format_Q_llama (Q : List Char) : List Char :=
  "<|start_header_id|>user<|end_header_id|> ".data ++ Q ++
    "<|eot_id|>".data ++ "<|start_header_id|>assistant<|end_header_id|>".data

/-- Phi-3 question formatting `_format_Q_phi3` (eval.py lines 61-62). -/
def format_Q_phi3 (Q : List Char) : List Char :=
  "<|user|>\n".data ++ Q ++ "<|end|>\n".data ++ "<|assistant|>\n".data

/-- Llama output stripping `_prune_for_llama` (eval.py lines 68-73): four
successive `replace(marker, '')` passes, in source order. -/
def prune_for_llama (S : List Char) : List Char :=
  pyReplaceEmpty "<|end_of_text|>".data
    (pyReplaceEmpty "<|start_header_id|>user<|end_header_id|>".data
      (pyReplaceEmpty "<|start_header_id|>assistant<|end_header_id|>".data
        (pyReplaceEmpty "<|eot_id|>".data S)))

/-- Phi-3 output stripping `_prune_for_phi3` (eval.py lines 76-80): three
successive `replace(marker, '')` passes, in source order. -/
def prune_for_phi3 (S : List Char) : List Char :=
  pyReplaceEmpty "<|user|>".data
    (pyReplaceEmpty "<|assistant|>".data
      (pyReplaceEmpty "<|end|>".data S))

/-- Some character among the first `min old.length l.length` positions
differs, so `old` cannot be a prefix of `l ++ anything`. -/
def mismatchWithin (old l : List Char) : Bool :=
  match old, l with
  | [], _ => false
  | _, [] => false
  | a :: as, b :: bs => a != b || mismatchWithin as bs

/-- Every position of `l` exhibits a mismatch with `old` inside `l` itself,
so no occurrence of `old` can start inside `l`, whatever follows `l`. -/
def noMatchStarts (old : List Char) : List Char → Bool
  | [] => true
  | c :: rest => mismatchWithin old (c :: rest) && noMatchStarts old rest

theorem pyReplaceEmpty_nil (old : List Char) : pyReplaceEmpty old [] = [] := by
  rw [pyReplaceEmpty]

theorem isPrefixOf_eq_false_of_mismatch (old : List Char) :
    ∀ l : List Char, mismatchWithin old l = true →
      ∀ s₂ : List Char, old.isPrefixOf (l ++ s₂) = false := by
  induction old with
  | nil => intro l h; simp [mismatchWithin] at h
  | cons a as ih =>
    intro l h s₂
    cases l with
    | nil => simp [mismatchWithin] at h
    | cons b bs =>
      simp only [mismatchWithin] at h
      rcases (Bool.or_eq_true _ _).mp h with hab | hmw
      · have hne : a ≠ b := by simpa using hab
        have hf : (a == b) = false := beq_eq_false_iff_ne.mpr hne
        simp [List.isPrefixOf, hf]
      · simp [List.isPrefixOf, ih bs hmw s₂]

theorem pyReplaceEmpty_append_of_noMatch (old : List Char) :
    ∀ l : List Char, noMatchStarts old l = true →
      ∀ s₂ : List Char,
        pyReplaceEmpty old (l ++ s₂) = l ++ pyReplaceEmpty old s₂ := by
  intro l
  induction l with
  | nil => intro _ s₂; rfl
  | cons c rest ih =>
    intro h s₂
    simp only [noMatchStarts, Bool.and_eq_true] at h
    have hpre : old.isPrefixOf ((c :: rest) ++ s₂) = false :=
      isPrefixOf_eq_false_of_mismatch old (c :: rest) h.1 s₂
    rw [List.cons_append, pyReplaceEmpty, dif_neg]
    · rw [ih h.2 s₂, List.cons_append]
    · intro hcond
      have hp := hcond.2
      rw [show (c :: (rest ++ s₂)) = (c :: rest) ++ s₂ from rfl, hpre] at hp
      exact Bool.false_ne_true hp

theorem pyReplaceEmpty_append_of_head_notin (old : List Char) (h₀ : Char)
    (hh : old.head? = some h₀) :
    ∀ l : List Char, (∀ c ∈ l, c ≠ h₀) →
      ∀ s₂ : List Char,
        pyReplaceEmpty old (l ++ s₂) = l ++ pyReplaceEmpty old s₂ := by
  cases old with
  | nil => simp at hh
  | cons o os =>
    have ho : o = h₀ := by simpa using hh
    subst ho
    intro l
    induction l with
    | nil => intro _ s₂; rfl
    | cons c rest ih =>
      intro h s₂
      have hc : c ≠ o := h c (List.mem_cons_self c rest)
      rw [List.cons_append, pyReplaceEmpty, dif_neg]
      · rw [ih (fun d hd => h d (List.mem_cons_of_mem c hd)) s₂,
          List.cons_append]
      · intro hcond
        have hp := hcond.2
        simp [List.isPrefixOf] at hp
        exact hc hp.1.symm

theorem pyReplaceEmpty_cancel_self (old : List Char) (hne : old ≠ []) :
    ∀ s : List Char, pyReplaceEmpty old (old ++ s) = pyReplaceEmpty old s := by
  intro s
  cases hold : old with
  | nil => exact absurd hold hne
  | cons o os =>
    rw [List.cons_append, pyReplaceEmpty, dif_pos]
    · have hd : (o :: (os ++ s)).drop (o :: os).length = s := by
        simp only [List.length_cons, List.drop_succ_cons]
        exact List.drop_left os s
      rw [hd]
    · refine ⟨by simp, ?_⟩
      have : (o :: os) <+: (o :: (os ++ s)) := ⟨s, by simp⟩
      exact List.isPrefixOf_iff_prefix.mpr this

theorem pyReplaceEmpty_self (old : List Char) (hne : old ≠ []) :
    pyReplaceEmpty old old = [] := by
  have h := pyReplaceEmpty_cancel_self old hne []
  rw [List.append_nil] at h
  rw [h, pyReplaceEmpty_nil]

theorem pyReplaceEmpty_of_noMatch (old l : List Char)
    (h : noMatchStarts old l = true) : pyReplaceEmpty old l = l := by
  have h2 := pyReplaceEmpty_append_of_noMatch old l h []
  rw [List.append_nil, pyReplaceEmpty_nil, List.append_nil] at h2
  exact h2

theorem pyReplaceEmpty_of_head_notin (old : List Char) (h₀ : Char)
    (hh : old.head? = some h₀) (l : List Char) (h : ∀ c ∈ l, c ≠ h₀) :
    pyReplaceEmpty old l = l := by
  have h2 := pyReplaceEmpty_append_of_head_notin old h₀ hh l h []
  rw [List.append_nil, pyReplaceEmpty_nil, List.append_nil] at h2
  exact h2

theorem prune_format_llama (Q : List Char) (hQ : ∀ c ∈ Q, c ≠ '<') :
    prune_for_llama (format_Q_llama Q) = ' ' :: Q := by
  have hspq : ∀ c ∈ [' '] ++ Q, c ≠ '<' := by
    intro c hc
    rcases List.mem_append.mp hc with hc | hc
    · simp at hc
      subst hc
      decide
    · exact hQ c hc
  have hU : "<|start_header_id|>user<|end_header_id|> ".data
      = "<|start_header_id|>user<|end_header_id|>".data ++ [' '] := by decide
  unfold prune_for_llama format_Q_llama
  rw [List.append_assoc, List.append_assoc]
  rw [pyReplaceEmpty_append_of_noMatch "<|eot_id|>".data
    "<|start_header_id|>user<|end_header_id|> ".data (by decide)]
  rw [pyReplaceEmpty_append_of_head_notin "<|eot_id|>".data '<'
    (by decide) Q hQ]
  rw [pyReplaceEmpty_cancel_self "<|eot_id|>".data (by decide)]
  rw [pyReplaceEmpty_of_noMatch "<|eot_id|>".data
    "<|start_header_id|>assistant<|end_header_id|>".data (by decide)]
  rw [pyReplaceEmpty_append_of_noMatch
    "<|start_header_id|>assistant<|end_header_id|>".data
    "<|start_header_id|>user<|end_header_id|> ".data (by decide)]
  rw [pyReplaceEmpty_append_of_head_notin
    "<|start_header_id|>assistant<|end_header_id|>".data '<'
    (by decide) Q hQ]
  rw [pyReplaceEmpty_self
    "<|start_header_id|>assistant<|end_header_id|>".data (by decide)]
  rw [List.append_nil]
  rw [hU, List.append_assoc]
  rw [pyReplaceEmpty_cancel_self
    "<|start_header_id|>user<|end_header_id|>".data (by decide)]
  rw [pyReplaceEmpty_of_head_notin
    "<|start_header_id|>user<|end_header_id|>".data '<'
    (by decide) ([' '] ++ Q) hspq]
  rw [pyReplaceEmpty_of_head_notin "<|end_of_text|>".data '<'
    (by decide) ([' '] ++ Q) hspq]
  rfl

theorem prune_format_phi3 (Q : List Char) (hQ : ∀ c ∈ Q, c ≠ '<') :
    prune_for_phi3 (format_Q_phi3 Q) = '\n' :: (Q ++ ['\n', '\n']) := by
  have hnq : ∀ c ∈ ['\n'] ++ (Q ++ (['\n'] ++ ['\n'])), c ≠ '<' := by
    intro c hc
    rcases List.mem_append.mp hc with hc | hc
    · simp at hc
      subst hc
      decide
    · rcases List.mem_append.mp hc with hc | hc
      · exact hQ c hc
      · simp at hc
        subst hc
        decide
  have hEn : "<|end|>\n".data = "<|end|>".data ++ ['\n'] := by decide
  have hAs : "<|assistant|>\n".data = "<|assistant|>".data ++ ['\n'] := by
    decide
  have hP : "<|user|>\n".data = "<|user|>".data ++ ['\n'] := by decide
  unfold prune_for_phi3 format_Q_phi3
  rw [List.append_assoc, List.append_assoc]
  rw [hEn, hAs, List.append_assoc]
  rw [pyReplaceEmpty_append_of_noMatch "<|end|>".data
    "<|user|>\n".data (by decide)]
  rw [pyReplaceEmpty_append_of_head_notin "<|end|>".data '<'
    (by decide) Q hQ]
  rw [pyReplaceEmpty_cancel_self "<|end|>".data (by decide)]
  rw [pyReplaceEmpty_of_noMatch "<|end|>".data
    (['\n'] ++ ("<|assistant|>".data ++ ['\n'])) (by decide)]
  rw [pyReplaceEmpty_append_of_noMatch "<|assistant|>".data
    "<|user|>\n".data (by decide)]
  rw [pyReplaceEmpty_append_of_head_notin "<|assistant|>".data '<'
    (by decide) Q hQ]
  rw [pyReplaceEmpty_append_of_noMatch "<|assistant|>".data
    ['\n'] (by decide)]
  rw [pyReplaceEmpty_cancel_self "<|assistant|>".data (by decide)]
  rw [pyReplaceEmpty_of_noMatch "<|assistant|>".data ['\n'] (by decide)]
  rw [hP, List.append_assoc]
  rw [pyReplaceEmpty_cancel_self "<|user|>".data (by decide)]
  rw [pyReplaceEmpty_of_head_notin "<|user|>".data '<' (by decide)
    (['\n'] ++ (Q ++ (['\n'] ++ ['\n']))) hnq]
  rfl

/-- Claim C9 (counterexample): for the question string `"<|eot_id|>"` —
itself a control marker — the llama round trip strips the question text
too: pruning the formatted prompt yields `" "`, which does not contain the
question as a substring, so the round trip does not hold for every question
string, and stripping can remove content beyond what formatting inserted. -/
theorem C9_counterexample :
    prune_for_llama (format_Q_llama "<|eot_id|>".data) = [' '] ∧
    ¬ ("<|eot_id|>".data <:+:
        prune_for_llama (format_Q_llama "<|eot_id|>".data)) := by
  have hU : "<|start_header_id|>user<|end_header_id|> ".data
      = "<|start_header_id|>user<|end_header_id|>".data ++ [' '] := by decide
  have hres : prune_for_llama (format_Q_llama "<|eot_id|>".data) = [' '] := by
    unfold prune_for_llama format_Q_llama
    rw [List.append_assoc, List.append_assoc]
    rw [pyReplaceEmpty_append_of_noMatch "<|eot_id|>".data
      "<|start_header_id|>user<|end_header_id|> ".data (by decide)]
    rw [pyReplaceEmpty_cancel_self "<|eot_id|>".data (by decide),
      pyReplaceEmpty_cancel_self "<|eot_id|>".data (by decide)]
    rw [pyReplaceEmpty_of_noMatch "<|eot_id|>".data
      "<|start_header_id|>assistant<|end_header_id|>".data (by decide)]
    rw [pyReplaceEmpty_append_of_noMatch
      "<|start_header_id|>assistant<|end_header_id|>".data
      "<|start_header_id|>user<|end_header_id|> ".data (by decide)]
    rw [pyReplaceEmpty_self
      "<|start_header_id|>assistant<|end_header_id|>".data (by decide)]
    rw [List.append_nil, hU]
    rw [pyReplaceEmpty_cancel_self
      "<|start_header_id|>user<|end_header_id|>".data (by decide)]
    rw [pyReplaceEmpty_of_noMatch
      "<|start_header_id|>user<|end_header_id|>".data [' '] (by decide)]
    rw [pyReplaceEmpty_of_noMatch "<|end_of_text|>".data [' '] (by decide)]
  refine ⟨hres, ?_⟩
  rw [hres]
  intro hinf
  exact absurd (List.IsInfix.length_le hinf) (by decide)

/-- Claim C9 (amended): for every question string Q containing no `'<'`
character (in particular free of the control markers), formatting for llama
then stripping yields exactly `" " ++ Q`, and formatting for phi3 then
stripping yields exactly `"\n" ++ Q ++ "\n\n"`; for both supported model
families the stripped output contains Q as a substring, the stripping
having removed exactly the markers the forward transform introduced. -/
theorem C9_roundtrip (Q : List Char) (hQ : ∀ c ∈ Q, c ≠ '<') :
    prune_for_llama (format_Q_llama Q) = ' ' :: Q ∧
    prune_for_phi3 (format_Q_phi3 Q) = '\n' :: (Q ++ ['\n', '\n']) ∧
    Q <:+: prune_for_llama (format_Q_llama Q) ∧
    Q <:+: prune_for_phi3 (format_Q_phi3 Q) := by
  refine ⟨prune_format_llama Q hQ, prune_format_phi3 Q hQ, ?_, ?_⟩
  · rw [prune_format_llama Q hQ]
    exact ⟨[' '], [], by simp⟩
  · rw [prune_format_phi3 Q hQ]
    exact ⟨['\n'], ['\n', '\n'], by simp⟩

/-- Claim C9 (witness): the marker-free question `"What is a dog"` survives
both round trips as a substring. -/
theorem C9_witness :
    "What is a dog".data <:+:
      prune_for_llama (format_Q_llama "What is a dog".data) ∧
    "What is a dog".data <:+:
      prune_for_phi3 (format_Q_phi3 "What is a dog".data) := by
  have h := C9_roundtrip "What is a dog".data (by decide)
  exact ⟨h.2.2.1, h.2.2.2⟩

/-- Claim C10 (witness): with a one-row KB and `remove_sorry = False`, the
loop generates and scores exactly `min(400, 1) = 1` answer. -/
theorem C10_witness :
    (generatedRows [⟨"Q?".data, "A".data, "red".data⟩]).length = min 400 1 ∧
    (performEvalScored [⟨"Q?".data, "A".data, "red".data⟩]
      (fun _ => "It is red.".data) (fun s => s) false).1.length
      = min 400 1 := by
  have h := C10_question_cap [⟨"Q?".data, "A".data, "red".data⟩]
    (fun _ => "It is red.".data) (fun s => s) false
  exact ⟨h.1, (h.2.1 rfl).1⟩
